import Mathlib

/-! Verification of aptos-enable-nft: retry ledger, confirmation poller and
orchestrator.

A shallow embedding of `src/index.js`.  Asynchronous functions become pure
functions over an explicit description of what the outside world answers
(the HTTP exchanges, the SDK calls); the module-level `retriesMap` becomes an
explicit map passed in and out; `throw` becomes `Except.error`.  A function
that runs past the end of the scripted answers returns `none`.
-/

set_option autoImplicit false

namespace AptosEnableNft

/-! ## JavaScript values and errors -/

/-- Value of a property read.  Numbers are the integers, `object` is a nested
plain object, whose content the program never inspects; a property holding
an array is outside the model. -/
inductive JsVal where
  | undefined
  | null
  | bool (b : Bool)
  | num (n : Int)
  | str (s : String)
  | object
  deriving DecidableEq, Repr

/-- Result of `JSON.parse` / `response.json()`: `null`, an object with its
properties (one entry per key), or another value that has none of the
properties the program reads (a number, a string, a boolean, an array). -/
inductive JsonBody where
  | null
  | object (fields : List (String × JsVal))
  | primitive
  deriving DecidableEq, Repr

/-- Where an exception comes from: a `throw new Error(...)` statement of
`index.js` (by line), the engine evaluating a line of `index.js`
(`TypeError`, `ReferenceError`), or a library call that rejects. -/
inductive Origin where
  | thrownAt (line : Nat)
  | runtime (line : Nat)
  | external
  deriving DecidableEq, Repr

/-- JavaScript error object; every exception the program meets is one. -/
structure JsError where
  origin : Origin
  name : String
  message : String
  deriving DecidableEq, Repr

/-- Equality of results is decidable when equality of errors and values is. -/
instance instDecidableEqExcept {ε α : Type} [DecidableEq ε] [DecidableEq α] :
    DecidableEq (Except ε α)
  | .ok a, .ok b =>
      if h : a = b then isTrue (by rw [h]) else isFalse (fun h' => h (Except.ok.inj h'))
  | .error a, .error b =>
      if h : a = b then isTrue (by rw [h]) else isFalse (fun h' => h (Except.error.inj h'))
  | .ok _, .error _ => isFalse (fun h => Except.noConfusion h)
  | .error _, .ok _ => isFalse (fun h => Except.noConfusion h)

/-- ToBoolean, as used by `!x` and `||`. -/
def truthy : JsVal → Bool
  | .undefined => false
  | .null => false
  | .bool b => b
  | .num n => n != 0
  | .str s => s != ""
  | .object => true

/-- ToString, as used by template literals and string concatenation. -/
def jsToString : JsVal → String
  | .undefined => "undefined"
  | .null => "null"
  | .bool true => "true"
  | .bool false => "false"
  | .num n => toString n
  | .str s => s
  | .object => "[object Object]"

/-- ToNumber restricted to the integers; `none` is `NaN`.  A string is read
as a decimal integer after trimming, the empty string as `0`. -/
def jsToNumber : JsVal → Option Int
  | .undefined => none
  | .null => some 0
  | .bool true => some 1
  | .bool false => some 0
  | .num n => some n
  | .str s => if s.trim = "" then some 0 else s.trim.toInt?
  | .object => none

/-- Relational `v >= k` against a number literal: false when `v` is `NaN`. -/
def jsGe (v : JsVal) (k : Int) : Bool :=
  match jsToNumber v with
  | none => false
  | some n => decide (k ≤ n)

/-- Strict equality `v === k` against a number literal. -/
def strictEqNum (v : JsVal) (k : Int) : Bool :=
  match v with
  | .num n => decide (n = k)
  | _ => false

/-- Strict equality `v === s` against a string literal. -/
def strictEqStr (v : JsVal) (s : String) : Bool :=
  match v with
  | .str t => decide (t = s)
  | _ => false

/-- Property read `body.key` at source line `line`: a `TypeError` on `null`,
`undefined` when the property is absent. -/
def getProp (line : Nat) (body : JsonBody) (key : String) : Except JsError JsVal :=
  match body with
  | .null =>
      .error ⟨.runtime line, "TypeError",
        "Cannot read properties of null (reading '" ++ key ++ "')"⟩
  | .object fields =>
      match fields.lookup key with
      | some v => .ok v
      | none => .ok .undefined
  | .primitive => .ok .undefined

/-- `haystack.includes(needle)` on lists of characters. -/
def includesChars (needle : List Char) : List Char → Bool
  | [] => needle.isPrefixOf []
  | c :: cs => needle.isPrefixOf (c :: cs) || includesChars needle cs

/-- `String.prototype.includes`. -/
def includes (haystack needle : String) : Bool :=
  includesChars needle.data haystack.data

/-! ## Configuration and the retry ledger (`index.js` lines 17-25) -/

/-- The recognised options of `config.js`. -/
structure Config where
  rpc : String
  retries : Int
  sleep : Nat

/-- `retriesMap`: address to stored count; `none` is an absent key. -/
abbrev RetriesMap := String → Option Nat

/-- Initial `new Map()`. -/
def emptyRetries : RetriesMap := fun _ => none

/-- `retriesMap.get(address) + 1 || 1`: an absent key gives `NaN`, which is
falsy, as is `0`. -/
def nextCount (stored : Option Nat) : Nat :=
  match stored with
  | none => 1
  | some n => if n + 1 = 0 then 1 else n + 1

/-- `handleRetries(address)`: stores the incremented count and returns
`count < maxRetries` for the count just stored. -/
def handleRetries (config : Config) (retriesMap : RetriesMap) (address : String) :
    Bool × RetriesMap :=
  let maxRetries := config.retries
  let count := nextCount (retriesMap address)
  (decide ((count : Int) < maxRetries), Function.update retriesMap address (some count))

/-! ## Transport layer (`index.js` lines 27-63) -/

/-- Failure of a library call (`fetch`, the agent constructor, the SDK): the
name and message of the error it raises. -/
structure Rejection where
  name : String
  message : String
  deriving DecidableEq, Repr

/-- The error object a rejected library call raises. -/
def Rejection.toError (rejection : Rejection) : JsError :=
  ⟨.external, rejection.name, rejection.message⟩

/-- What one `fetch` does: it rejects, or it resolves to a response with an
HTTP status, a body text (`response.text()`) and the parsed body
(`response.json()`, `none` when the body is not JSON and `json()` rejects). -/
inductive FetchOutcome where
  | rejected (rejection : Rejection)
  | response (status : Nat) (text : String) (json : Option JsonBody)
  deriving DecidableEq, Repr

/-- Rejection of `response.json()` on a body that is not JSON. -/
def invalidJson : JsError :=
  ⟨.external, "FetchError", "invalid json response body"⟩

/-- `submitTransactionProxy`: status `>= 400` throws an error with the body
text and the status; otherwise the parsed body is returned. -/
def submitTransactionProxy (outcome : FetchOutcome) : Except JsError JsonBody :=
  match outcome with
  | .rejected rejection => .error rejection.toError
  | .response status text json =>
      if status ≥ 400 then
        .error ⟨.thrownAt 42, "Error",
          "ApiError: " ++ text ++ ", Status Code: " ++ toString status⟩
      else
        match json with
        | none => .error invalidJson
        | some responseData => .ok responseData

/-- `getTransactionByHash`: a status other than 404 that is `>= 400` throws;
otherwise (404 included) the parsed body is returned. -/
def getTransactionByHash (outcome : FetchOutcome) : Except JsError JsonBody :=
  match outcome with
  | .rejected rejection => .error rejection.toError
  | .response status _ json =>
      if status != 404 && decide (status ≥ 400) then
        .error ⟨.thrownAt 60, "Error", "ApiError: " ++ toString status⟩
      else
        match json with
        | none => .error invalidJson
        | some body => .ok body

/-- The message prefix by which the program marks an error as an `ApiError`. -/
def isApiError (err : JsError) : Bool :=
  "ApiError:".data.isPrefixOf err.message.data

/-! ## Confirmation poller (`index.js` lines 65-102) -/

/-- `transactionPendingProxy`: the tests on `status` and `type` read the
value returned by `getTransactionByHash`, that is the parsed body. -/
def transactionPendingProxy (outcome : FetchOutcome) : Except JsError Bool :=
  match getTransactionByHash outcome with
  | .error err => .error err
  | .ok response =>
      match getProp 67 response "status" with
      | .error err => .error err
      | .ok status =>
          if strictEqNum status 404 then .ok true
          else if jsGe status 400 then
            match getProp 71 response "text" with
            | .error err => .error err
            | .ok text =>
                .error ⟨.thrownAt 71, "Error",
                  "ApiError: " ++ jsToString text ++ ", Status Code: " ++ jsToString status⟩
          else
            match getProp 73 response "type" with
            | .error err => .error err
            | .ok type => .ok (strictEqStr type "pending_transaction")

/-- Result of one run of the poller: what it returns or throws, how many
times `getTransactionByHash` was called and how many `timeout(1000)` waits
were made. -/
structure PollResult where
  result : Except JsError JsonBody
  calls : Nat
  waits : Nat
  deriving DecidableEq, Repr

/-- `Transaction ${txnHash} timed out`, thrown at `line`. -/
def timedOut (line : Nat) (txnHash : String) : JsError :=
  ⟨.thrownAt line, "Error", "Transaction " ++ txnHash ++ " timed out"⟩

/-- Loop test and guard of the second loop of `waitForTransactionProxy`
(lines 90-93) and, once the loop is left, lines 98-101, for the record last
fetched: `some r` when the poller completes with `r` without another fetch,
`none` when the loop body runs and fetches again. -/
def finalityCheck (txnHash : String) (response : JsonBody) (count calls waits : Nat) :
    Option PollResult :=
  match getProp 90 response "success" with
  | .error err => some ⟨.error err, calls, waits⟩
  | .ok success =>
      if !truthy success then
        if count ≥ 50 then
          some ⟨.error (timedOut 92 txnHash), calls, waits⟩
        else
          none
      else
        match getProp 98 response "success" with
        | .error err => some ⟨.error err, calls, waits⟩
        | .ok success' =>
            if !truthy success' then
              match getProp 99 response "text" with
              | .error err => some ⟨.error err, calls, waits⟩
              | .ok text =>
                  some ⟨.error ⟨.thrownAt 99, "Error",
                    jsToString text ++ " - " ++ txnHash⟩, calls, waits⟩
            else
              some ⟨.ok response, calls, waits⟩

/-- Second loop of `waitForTransactionProxy` (lines 90-101), entered with the
record last fetched; the list holds the answers to the fetches still to come,
and the loop body (lines 94-96) consumes one of them. -/
def awaitFinality (txnHash : String) :
    List FetchOutcome → JsonBody → Nat → Nat → Nat → Option PollResult
  | [], response, count, calls, waits => finalityCheck txnHash response count calls waits
  | outcome :: rest, response, count, calls, waits =>
      match finalityCheck txnHash response count calls waits with
      | some r => some r
      | none =>
          match getTransactionByHash outcome with
          | .error err => some ⟨.error err, calls + 1, waits⟩
          | .ok response' =>
              awaitFinality txnHash rest response' (count + 1) (calls + 1) (waits + 1)

/-- Lines 88-101 of `waitForTransactionProxy`: the fetch that follows the
first loop, then the second loop started with `count = 0`. -/
def settle (txnHash : String) : List FetchOutcome → Nat → Nat → Option PollResult
  | [], _, _ => none
  | outcome :: rest, calls, waits =>
      match getTransactionByHash outcome with
      | .error err => some ⟨.error err, calls + 1, waits⟩
      | .ok response => awaitFinality txnHash rest response 0 (calls + 1) waits

/-- First loop of `waitForTransactionProxy` (lines 80-86), each test of which
consumes one answer, followed by the rest of the function. -/
def awaitIndex (txnHash : String) :
    List FetchOutcome → Nat → Nat → Nat → Option PollResult
  | [], _, _, _ => none
  | outcome :: rest, count, calls, waits =>
      match transactionPendingProxy outcome with
      | .error err => some ⟨.error err, calls + 1, waits⟩
      | .ok true =>
          if count ≥ 50 then
            some ⟨.error (timedOut 82 txnHash), calls + 1, waits⟩
          else
            awaitIndex txnHash rest (count + 1) (calls + 1) (waits + 1)
      | .ok false => settle txnHash rest (calls + 1) waits

/-- `waitForTransactionProxy(txnHash, proxy)` against the scripted answers of
the by-hash endpoint. -/
def waitForTransactionProxy (txnHash : String) (script : List FetchOutcome) :
    Option PollResult :=
  awaitIndex txnHash script 0 0 0

/-- What a normal or exceptional completion of the poller satisfies: a
returned record has a truthy `success`, and no error comes from line 99. -/
def PollSound (r : PollResult) : Prop :=
  (∀ body, r.result = .ok body →
      ∃ v, getProp 90 body "success" = .ok v ∧ truthy v = true) ∧
    (∀ err, r.result = .error err → err.origin ≠ .thrownAt 99)

/-- Aptos answer to a by-hash read of a transaction it has not indexed. -/
def notFoundBody : JsonBody :=
  .object [("message", .str "Transaction not found by Transaction hash(0xabc)"),
    ("error_code", .str "transaction_not_found"), ("vm_error_code", .null)]

/-- A 404 answer of the node. -/
def notFoundAnswer : FetchOutcome :=
  .response 404 "Transaction not found" (some notFoundBody)

/-- A pending record. -/
def pendingRecord : JsonBody :=
  .object [("type", .str "pending_transaction"), ("hash", .str "0xabc")]

/-- A committed record with the given `success` flag. -/
def userRecord (success : Bool) : JsonBody :=
  .object [("type", .str "user_transaction"), ("hash", .str "0xabc"),
    ("success", .bool success), ("vm_status", .str "Executed successfully")]

/-- A 200 answer with the given parsed body. -/
def okAnswer (body : JsonBody) : FetchOutcome :=
  .response 200 "" (some body)

/-- A 404 answer as the node gives it: an error object with none of the
properties `status`, `type`, `success`. -/
def isNotFoundAnswer (outcome : FetchOutcome) : Bool :=
  match outcome with
  | .response status _ (some (.object fields)) =>
      decide (status = 404) && fields.lookup "status" == none
        && fields.lookup "type" == none && fields.lookup "success" == none
  | _ => false

/-- A pending record served with a status below 400: `type` is
`pending_transaction`, there is no `status` and no `success` property. -/
def isPendingAnswer (outcome : FetchOutcome) : Bool :=
  match outcome with
  | .response status _ (some (.object fields)) =>
      decide (status < 400) && fields.lookup "status" == none
        && fields.lookup "type" == some (.str "pending_transaction")
        && fields.lookup "success" == none
  | _ => false

/-- A committed record served with a status below 400 whose `success`
property is the boolean `flag`: no `status` property, `type` not pending. -/
def isRecordAnswer (flag : Bool) (outcome : FetchOutcome) : Bool :=
  match outcome with
  | .response status _ (some (.object fields)) =>
      decide (status < 400) && fields.lookup "status" == none
        && fields.lookup "type" != some (.str "pending_transaction")
        && fields.lookup "success" == some (.bool flag)
  | _ => false

/-! ## Variable scopes -/

/-- What a variable in scope holds: an `AptosAccount` (by its address) or
something that is not an account. -/
inductive Binding where
  | account (address : String)
  | other
  deriving DecidableEq, Repr

/-- Module-level bindings of `index.js`: its imports, the built-ins it uses
and its top-level declarations. -/
def moduleScope : List (String × Binding) :=
  ["AptosClient", "AptosAccount", "CoinClient", "HttpsProxyAgent", "fetch", "Buffer",
    "config", "consoleStamp", "fs", "console", "JSON", "Math", "Number", "Promise", "Error",
    "Uint8Array", "setTimeout", "parseFile", "generateRandomNumber", "timeout", "client",
    "coinClient", "retriesMap", "handleRetries", "submitTransactionProxy",
    "getTransactionByHash", "transactionPendingProxy", "waitForTransactionProxy",
    "sendTransaction", "enable_nft", "checkBalance"].map (fun name => (name, Binding.other))

/-- Bindings visible in the `catch` block of `sendTransaction(sender, payload, proxy)`. -/
def sendTransactionScope (sender : String) : List (String × Binding) :=
  [("sender", .account sender), ("payload", .other), ("proxy", .other), ("err", .other)]
    ++ moduleScope

/-- Bindings visible in the `catch` block of `checkBalance(account)`. -/
def checkBalanceScope (account : String) : List (String × Binding) :=
  [("account", .account account), ("err", .other)] ++ moduleScope

/-- Evaluation of an identifier at `line`: a `ReferenceError` when no binding
of that name is in scope. -/
def lookupVar (line : Nat) (scope : List (String × Binding)) (name : String) :
    Except JsError Binding :=
  match scope.lookup name with
  | some binding => .ok binding
  | none => .error ⟨.runtime line, "ReferenceError", name ++ " is not defined"⟩

/-- Evaluation of `x.address().toString()` for the value bound to `x`. -/
def addressString (line : Nat) (binding : Binding) : Except JsError String :=
  match binding with
  | .account address => .ok address
  | .other => .error ⟨.runtime line, "TypeError", "address is not a function"⟩

/-! ## Transaction orchestrator (`index.js` lines 104-129) -/

/-- What the outside world does during one invocation of `sendTransaction`:
whether `generateTransaction` and `signTransaction` reject, what the submit
request does (a failing `HttpsProxyAgent` constructor counts as a rejected
request), and what the by-hash endpoint answers afterwards.  The gas ceiling
drawn on line 107 is part of the request and decides nothing here. -/
structure Attempt where
  generate : Option Rejection
  sign : Option Rejection
  submit : FetchOutcome
  polls : List FetchOutcome
  deriving DecidableEq, Repr

/-- One `console.log` call of `index.js`, by the statement that made it and
the value it printed. -/
inductive LogEntry where
  | explorerLink (txnHash : JsVal)
  | error (value : JsVal)
  | balance (apt : ℚ)
  | zeroBalance
  deriving DecidableEq, Repr

/-- Optional read `transactionRes?.hash` of line 114. -/
def optionalHash (transactionRes : JsonBody) : JsVal :=
  match transactionRes with
  | .null => .undefined
  | .object fields =>
      match fields.lookup "hash" with
      | some v => v
      | none => .undefined
  | .primitive => .undefined

/-- The `try` block of `sendTransaction`: its completion and the lines it
logs.  `none` when the poller runs past the scripted answers. -/
def tryBlock (attempt : Attempt) : Option (Except JsError JsonBody × List LogEntry) :=
  match attempt.generate with
  | some rejection => some (.error rejection.toError, [])
  | none =>
      match attempt.sign with
      | some rejection => some (.error rejection.toError, [])
      | none =>
          match submitTransactionProxy attempt.submit with
          | .error err => some (.error err, [])
          | .ok transactionRes =>
              let txnHash := optionalHash transactionRes
              match waitForTransactionProxy (jsToString txnHash) attempt.polls with
              | none => none
              | some polled => some (polled.result, [.explorerLink txnHash])

/-- Whether the `try` block of an invocation ends in an exception. -/
def attemptFails (attempt : Attempt) : Bool :=
  match tryBlock attempt with
  | some (.error _, _) => true
  | _ => false

/-- The logging `try`/`catch` of lines 120-122: the `message` property of
the parsed error message, or the raw message when parsing or the property
read throws; `parse` is `JSON.parse`, `none` when it throws. -/
def errorLine (parse : String → Option JsonBody) (err : JsError) : LogEntry :=
  match parse err.message with
  | none => .error (.str err.message)
  | some body =>
      match getProp 121 body "message" with
      | .error _ => .error (.str err.message)
      | .ok v => .error v

/-- Result of `sendTransaction`: how the returned promise settles, the retry
map afterwards, the number of invocations (the first call and its recursive
re-invocations), the number of `handleRetries` calls, the number of
`timeout(10000)` cooldowns, the proxy argument of each invocation and the
logged lines. -/
structure SendResult where
  outcome : Except JsError Unit
  retriesMap : RetriesMap
  attempts : Nat
  consulted : Nat
  cooldowns : Nat
  proxies : List (Option String)
  log : List LogEntry

/-- `sendTransaction(sender, payload, proxy)`; `sender` is the address of the
signer, `attempts` what the world does in each successive invocation.  The
recursive call of line 126 passes no proxy. -/
def sendTransaction (config : Config) (parse : String → Option JsonBody) (sender : String) :
    List Attempt → RetriesMap → Option String → Option SendResult
  | [], _, _ => none
  | attempt :: rest, retriesMap, proxy =>
      match tryBlock attempt with
      | none => none
      | some (.ok _, lines) => some ⟨.ok (), retriesMap, 1, 0, 0, [proxy], lines⟩
      | some (.error err, lines) =>
          let log := lines ++ [errorLine parse err]
          match lookupVar 124 (sendTransactionScope sender) "sender" >>= addressString 124 with
          | .error thrown => some ⟨.error thrown, retriesMap, 1, 0, 0, [proxy], log⟩
          | .ok address =>
              match handleRetries config retriesMap address with
              | (true, retriesMap') =>
                  match sendTransaction config parse sender rest retriesMap' none with
                  | none => none
                  | some r =>
                      some ⟨r.outcome, r.retriesMap, r.attempts + 1, r.consulted + 1,
                        r.cooldowns + 1, proxy :: r.proxies, log ++ r.log⟩
              | (false, retriesMap') => some ⟨.ok (), retriesMap', 1, 1, 0, [proxy], log⟩

/-! ## Balance check (`index.js` lines 147-168) -/

/-- Result of `checkBalance`: how the returned promise settles (`none` is
`undefined`), the retry map afterwards, the number of invocations, the
number of `handleRetries` calls and the logged lines. -/
structure BalanceResult where
  outcome : Except JsError (Option ℚ)
  retriesMap : RetriesMap
  attempts : Nat
  consulted : Nat
  log : List LogEntry

/-- The inner `try`/`catch` of lines 154-161: whether it returns `0` from
`checkBalance`, and the line it logs.  Calling `includes` on a value that is
not a string raises a `TypeError`, which the inner `catch` logs like a
failed `JSON.parse`. -/
def resourceNotFound (parse : String → Option JsonBody) (err : JsError) : Bool × LogEntry :=
  match parse err.message with
  | none => (false, .error (.str err.message))
  | some body =>
      match getProp 155 body "message" with
      | .error _ => (false, .error (.str err.message))
      | .ok (.str message) =>
          if includes message "Resource not found" then (true, .zeroBalance)
          else (false, .error (.str message))
      | .ok _ => (false, .error (.str err.message))

/-- `checkBalance(account)`; `account` is the address of the account,
`queries` what `coinClient.checkBalance` does in each successive invocation
(the balance in octas, or a rejection).  The quotient by `100000000` is taken
exactly. -/
def checkBalance (config : Config) (parse : String → Option JsonBody) (account : String) :
    List (Except Rejection Nat) → RetriesMap → Option BalanceResult
  | [], _ => none
  | .ok octas :: _, retriesMap =>
      let balance : ℚ := (octas : ℚ) / 100000000
      some ⟨.ok (some balance), retriesMap, 1, 0, [.balance balance]⟩
  | .error rejection :: rest, retriesMap =>
      let err := rejection.toError
      match resourceNotFound parse err with
      | (true, line) => some ⟨.ok (some 0), retriesMap, 1, 0, [line]⟩
      | (false, line) =>
          match lookupVar 163 (checkBalanceScope account) "sender" >>= addressString 163 with
          | .error thrown => some ⟨.error thrown, retriesMap, 1, 0, [line]⟩
          | .ok address =>
              match handleRetries config retriesMap address with
              | (true, retriesMap') =>
                  match checkBalance config parse account rest retriesMap' with
                  | none => none
                  | some r =>
                      some ⟨r.outcome, r.retriesMap, r.attempts + 1, r.consulted + 1,
                        line :: r.log⟩
              | (false, retriesMap') => some ⟨.ok none, retriesMap', 1, 1, [line]⟩

/-- A rejected request: the proxy refuses the connection. -/
def connectionRefused : Rejection :=
  ⟨"FetchError", "request failed, reason: connect ECONNREFUSED 127.0.0.1:8080"⟩

/-- An attempt whose submit request is refused. -/
def refusedAttempt : Attempt := ⟨none, none, .rejected connectionRefused, []⟩

/-- An attempt whose submission is accepted and whose transaction stays
pending for as long as it is polled. -/
def stuckAttempt : Attempt :=
  ⟨none, none, okAnswer (.object [("hash", .str "0xabc")]),
    List.replicate 102 (okAnswer pendingRecord)⟩

/-- A configuration with the given `retries`. -/
def sampleConfig (retries : Int) : Config :=
  ⟨"https://fullnode.mainnet.aptoslabs.com/v1", retries, 1000⟩

/-- `JSON.parse` on messages that are not JSON. -/
def parseFails : String → Option JsonBody := fun _ => none

/-! ## Proxy normalisation in the batch driver (`index.js` lines 177-181) -/

/-- `if (!proxy.includes('://')) proxy = 'http://' + proxy`. -/
def normalizeProxy (proxy : String) : String :=
  if !includes proxy "://" then "http://" ++ proxy else proxy

/-! ## Theorems: retry ledger -/

/-- C2 (as stated, refuted): with `retries = 1` and an empty map the
pre-increment count `0` is below `maxRetries`, yet `handleRetries` stores `1`
and returns `false`. -/
theorem handleRetries_preIncrement_counterexample :
    ((emptyRetries "0x1").getD 0 : Int) < (sampleConfig 1).retries ∧
      (handleRetries (sampleConfig 1) emptyRetries "0x1").1 = false ∧
      (handleRetries (sampleConfig 1) emptyRetries "0x1").2 "0x1" = some 1 := by
  decide

/-- C2 (amended): `handleRetries` stores the pre-increment count plus one for
the identity (`1` if absent), leaves every other identity as it was, and
returns true if and only if the count just stored is below `maxRetries`. -/
theorem handleRetries_postIncrement (config : Config) (retriesMap : RetriesMap)
    (address : String) :
    (handleRetries config retriesMap address).2 address
        = some ((retriesMap address).getD 0 + 1) ∧
      (∀ other, other ≠ address →
        (handleRetries config retriesMap address).2 other = retriesMap other) ∧
      ((handleRetries config retriesMap address).1 = true ↔
        (((retriesMap address).getD 0 + 1 : Nat) : Int) < config.retries) := by
  have hc : nextCount (retriesMap address) = (retriesMap address).getD 0 + 1 := by
    cases h : retriesMap address <;> simp [nextCount]
  refine ⟨?_, ?_, ?_⟩
  · simp [handleRetries, hc]
  · intro other hne
    simp [handleRetries, Function.update, hne]
  · simp [handleRetries, hc]

/-! ## Theorems: proxy normalisation -/

theorem includesChars_append_left (needle pre rest : List Char)
    (h : includesChars needle rest = true) : includesChars needle (pre ++ rest) = true := by
  induction pre with
  | nil => simpa using h
  | cons c cs ih => simp [includesChars, ih]

theorem includes_http (p : String) : includes ("http://" ++ p) "://" = true := by
  have h : ("http://" ++ p).data = ['h', 't', 't', 'p'] ++ (':' :: '/' :: '/' :: p.data) := by
    rw [String.data_append]; rfl
  have hn : ("://" : String).data = [':', '/', '/'] := rfl
  unfold includes
  rw [h, hn]
  apply includesChars_append_left
  cases hp : p.data <;> simp [includesChars, List.isPrefixOf]

/-- C9: a proxy without `://` is passed on as `http://` followed by it, a
proxy with `://` is passed on unchanged; the two examples of the spec
evaluate as stated, the result always contains `://`, and normalising twice
equals normalising once. -/
theorem normalizeProxy_spec (p : String) :
    normalizeProxy p = (if includes p "://" then p else "http://" ++ p) ∧
      normalizeProxy "1.2.3.4:8080" = "http://1.2.3.4:8080" ∧
      normalizeProxy "socks5://1.2.3.4:1080" = "socks5://1.2.3.4:1080" ∧
      includes (normalizeProxy p) "://" = true ∧
      normalizeProxy (normalizeProxy p) = normalizeProxy p := by
  have hin : includes (normalizeProxy p) "://" = true := by
    unfold normalizeProxy
    cases h : includes p "://"
    · simpa using includes_http p
    · simpa using h
  refine ⟨?_, by decide, by decide, hin, ?_⟩
  · unfold normalizeProxy
    cases h : includes p "://" <;> simp
  · have h2 : normalizeProxy (normalizeProxy p)
        = (if !includes (normalizeProxy p) "://" then "http://" ++ normalizeProxy p
            else normalizeProxy p) := rfl
    rw [h2, hin]
    simp

/-! ## Theorems: transport layer -/

theorem isApiError_message (origin : Origin) (rest : String) :
    isApiError ⟨origin, "Error", "ApiError: " ++ rest⟩ = true := by
  have h : ("ApiError: " ++ rest).data
      = ['A', 'p', 'i', 'E', 'r', 'r', 'o', 'r', ':'] ++ (' ' :: rest.data) := by
    rw [String.data_append]; rfl
  have hn : ("ApiError:" : String).data = ['A', 'p', 'i', 'E', 'r', 'r', 'o', 'r', ':'] := rfl
  simp only [isApiError]
  rw [h]
  simp [List.isPrefixOf]

/-- C5 (evaluation at the failing input): `getTransactionByHash` raises an
`ApiError` exactly when the status is at least 400 and not 404, but for a
status-500 response the error is `ApiError: 500` whatever the body text is,
so it does not carry the body text; the submit path on the same response
does carry it. -/
theorem getTransactionByHash_500_drops_text (status : Nat) (text : String)
    (json : Option JsonBody) :
    ((∃ err, getTransactionByHash (.response status text json) = .error err ∧
          isApiError err = true) ↔ (400 ≤ status ∧ status ≠ 404)) ∧
      getTransactionByHash (.response 500 text json)
        = .error ⟨.thrownAt 60, "Error", "ApiError: 500"⟩ ∧
      submitTransactionProxy (.response 500 text json)
        = .error ⟨.thrownAt 42, "Error", "ApiError: " ++ text ++ ", Status Code: 500"⟩ := by
  have h500 : toString (500 : Nat) = "500" := by decide
  refine ⟨?_, rfl, ?_⟩
  · by_cases hs : 400 ≤ status ∧ status ≠ 404
    · have hcond : (status != 404 && decide (status ≥ 400)) = true := by
        simp [hs.1, hs.2]
      refine ⟨fun _ => hs, fun _ => ?_⟩
      simp only [getTransactionByHash, hcond, if_true]
      exact ⟨_, rfl, isApiError_message _ _⟩
    · have hcond : (status != 404 && decide (status ≥ 400)) = false := by
        rcases not_and_or.mp hs with h | h
        · simp [h]
        · simp at h; simp [h]
      refine ⟨?_, fun h => absurd h hs⟩
      simp only [getTransactionByHash, hcond]
      rintro ⟨err, herr, hapi⟩
      cases json with
      | none =>
          simp at herr
          rw [← herr] at hapi
          exact absurd hapi (by decide)
      | some body => simp at herr
  · simp only [submitTransactionProxy, h500]
    rw [if_pos (by decide), String.append_assoc]
    rfl

/-- C6 (evaluation at the failing input): on the node's 404 answer
`transactionPendingProxy` returns `false`, because the `status` it tests is a
property of the parsed body, and the poller leaves its first loop after that
single call. -/
theorem transactionPendingProxy_notFound_false :
    getTransactionByHash notFoundAnswer = .ok notFoundBody ∧
      transactionPendingProxy notFoundAnswer = .ok false ∧
      waitForTransactionProxy "0xabc" [notFoundAnswer, okAnswer (userRecord true)]
        = some ⟨.ok (userRecord true), 2, 0⟩ := by
  decide

/-! ## Theorems: confirmation poller -/

theorem getProp_error_origin (line : Nat) (body : JsonBody) (key : String) (err : JsError)
    (h : getProp line body key = .error err) : err.origin = .runtime line := by
  cases body with
  | null => simp [getProp] at h; rw [← h]
  | object fields =>
      simp only [getProp] at h
      split at h <;> simp at h
  | primitive => simp [getProp] at h

theorem getTransactionByHash_error_origin (outcome : FetchOutcome) (err : JsError)
    (h : getTransactionByHash outcome = .error err) :
    err.origin = .external ∨ err.origin = .thrownAt 60 := by
  cases outcome with
  | rejected rejection =>
      simp [getTransactionByHash] at h
      left; rw [← h]; rfl
  | response status text json =>
      simp only [getTransactionByHash] at h
      split at h
      · simp at h; right; rw [← h]
      · split at h
        · simp at h; left; rw [← h]; rfl
        · simp at h

theorem transactionPendingProxy_error_origin (outcome : FetchOutcome) (err : JsError)
    (h : transactionPendingProxy outcome = .error err) : err.origin ≠ .thrownAt 99 := by
  unfold transactionPendingProxy at h
  split at h
  · next e he =>
      simp at h
      rcases getTransactionByHash_error_origin outcome e he with h' | h' <;>
        rw [← h, h'] <;> simp
  · split at h
    · next e he =>
        simp at h
        rw [← h, getProp_error_origin _ _ _ _ he]; simp
    · split at h
      · simp at h
      · split at h
        · split at h
          · next e he =>
              simp at h
              rw [← h, getProp_error_origin _ _ _ _ he]; simp
          · simp at h; rw [← h]; simp
        · split at h
          · next e he =>
              simp at h
              rw [← h, getProp_error_origin _ _ _ _ he]; simp
          · simp at h

theorem getProp_line (line line' : Nat) (body : JsonBody) (key : String) (v : JsVal)
    (h : getProp line body key = .ok v) : getProp line' body key = .ok v := by
  cases body with
  | null => simp [getProp] at h
  | object fields => simpa [getProp] using h
  | primitive => simpa [getProp] using h

theorem finalityCheck_sound (txnHash : String) (response : JsonBody) (count calls waits : Nat)
    (r : PollResult) (h : finalityCheck txnHash response count calls waits = some r) :
    PollSound r := by
  unfold finalityCheck at h
  split at h
  · next e he =>
      simp at h
      subst h
      refine ⟨fun body hb => by simp at hb, fun err herr => ?_⟩
      simp at herr
      rw [← herr, getProp_error_origin _ _ _ _ he]; simp
  · next success hs =>
      split at h
      · split at h
        · simp at h
          subst h
          refine ⟨fun body hb => by simp at hb, fun err herr => ?_⟩
          simp at herr
          rw [← herr]; simp [timedOut]
        · simp at h
      · next hfalsy =>
          rw [getProp_line 90 98 _ _ _ hs] at h
          simp only [hfalsy] at h
          simp at h
          subst h
          refine ⟨fun body hb => ?_, fun err herr => by simp at herr⟩
          simp at hb
          subst hb
          exact ⟨success, hs, by simpa using hfalsy⟩

theorem awaitFinality_sound (txnHash : String) :
    ∀ (script : List FetchOutcome) (response : JsonBody) (count calls waits : Nat)
      (r : PollResult),
      awaitFinality txnHash script response count calls waits = some r → PollSound r := by
  intro script
  induction script with
  | nil =>
      intro response count calls waits r h
      exact finalityCheck_sound txnHash response count calls waits r h
  | cons outcome rest ih =>
      intro response count calls waits r h
      rw [awaitFinality] at h
      split at h
      · next r' hr' =>
          simp at h
          subst h
          exact finalityCheck_sound txnHash response count calls waits _ hr'
      · split at h
        · next e he =>
            simp at h
            subst h
            refine ⟨fun body hb => by simp at hb, fun err herr => ?_⟩
            simp at herr
            rcases getTransactionByHash_error_origin outcome e he with h' | h' <;>
              rw [← herr, h'] <;> simp
        · exact ih _ _ _ _ r h

theorem settle_sound (txnHash : String) (script : List FetchOutcome) (calls waits : Nat)
    (r : PollResult) (h : settle txnHash script calls waits = some r) : PollSound r := by
  cases script with
  | nil => simp [settle] at h
  | cons outcome rest =>
      rw [settle] at h
      split at h
      · next e he =>
          simp at h
          subst h
          refine ⟨fun body hb => by simp at hb, fun err herr => ?_⟩
          simp at herr
          rcases getTransactionByHash_error_origin outcome e he with h' | h' <;>
            rw [← herr, h'] <;> simp
      · exact awaitFinality_sound txnHash _ _ _ _ _ r h

theorem awaitIndex_sound (txnHash : String) :
    ∀ (script : List FetchOutcome) (count calls waits : Nat) (r : PollResult),
      awaitIndex txnHash script count calls waits = some r → PollSound r := by
  intro script
  induction script with
  | nil =>
      intro count calls waits r h
      simp [awaitIndex] at h
  | cons outcome rest ih =>
      intro count calls waits r h
      rw [awaitIndex] at h
      split at h
      · next e he =>
          simp at h
          subst h
          refine ⟨fun body hb => by simp at hb, fun err herr => ?_⟩
          simp at herr
          rw [← herr]
          exact transactionPendingProxy_error_origin outcome e he
      · split at h
        · simp at h
          subst h
          refine ⟨fun body hb => by simp at hb, fun err herr => ?_⟩
          simp at herr
          rw [← herr]; simp [timedOut]
        · exact ih _ _ _ r h
      · exact settle_sound txnHash _ _ _ r h

theorem isNotFoundAnswer_spec (outcome : FetchOutcome) (h : isNotFoundAnswer outcome = true) :
    transactionPendingProxy outcome = .ok false ∧
      ∃ body, getTransactionByHash outcome = .ok body ∧
        ∀ line, getProp line body "success" = .ok .undefined := by
  cases outcome with
  | rejected rejection => simp [isNotFoundAnswer] at h
  | response status text json =>
      cases json with
      | none => simp [isNotFoundAnswer] at h
      | some body =>
          cases body with
          | null => simp [isNotFoundAnswer] at h
          | primitive => simp [isNotFoundAnswer] at h
          | object fields =>
              simp only [isNotFoundAnswer, Bool.and_eq_true, decide_eq_true_eq, beq_iff_eq,
                bne_iff_ne, ne_eq] at h
              obtain ⟨⟨⟨hst, h1⟩, h2⟩, h3⟩ := h
              subst hst
              refine ⟨?_, _, rfl, ?_⟩
              · simp [transactionPendingProxy, getTransactionByHash, getProp, h1, h2,
                  strictEqNum, jsGe, jsToNumber, strictEqStr]
              · intro line
                simp [getProp, h3]

theorem isPendingAnswer_spec (outcome : FetchOutcome) (h : isPendingAnswer outcome = true) :
    transactionPendingProxy outcome = .ok true ∧
      ∃ body, getTransactionByHash outcome = .ok body ∧
        ∀ line, getProp line body "success" = .ok .undefined := by
  cases outcome with
  | rejected rejection => simp [isPendingAnswer] at h
  | response status text json =>
      cases json with
      | none => simp [isPendingAnswer] at h
      | some body =>
          cases body with
          | null => simp [isPendingAnswer] at h
          | primitive => simp [isPendingAnswer] at h
          | object fields =>
              simp only [isPendingAnswer, Bool.and_eq_true, decide_eq_true_eq, beq_iff_eq,
                bne_iff_ne, ne_eq] at h
              obtain ⟨⟨⟨hst, h1⟩, h2⟩, h3⟩ := h
              have hge : ¬ (400 ≤ status) := by omega
              refine ⟨?_, .object fields, ?_, ?_⟩
              · simp [transactionPendingProxy, getTransactionByHash, getProp, h1, h2,
                  strictEqNum, jsGe, jsToNumber, strictEqStr, hge]
              · simp [getTransactionByHash, hge]
              · intro line
                simp [getProp, h3]

theorem isRecordAnswer_spec (flag : Bool) (outcome : FetchOutcome)
    (h : isRecordAnswer flag outcome = true) :
    transactionPendingProxy outcome = .ok false ∧
      ∃ body, getTransactionByHash outcome = .ok body ∧
        ∀ line, getProp line body "success" = .ok (.bool flag) := by
  cases outcome with
  | rejected rejection => simp [isRecordAnswer] at h
  | response status text json =>
      cases json with
      | none => simp [isRecordAnswer] at h
      | some body =>
          cases body with
          | null => simp [isRecordAnswer] at h
          | primitive => simp [isRecordAnswer] at h
          | object fields =>
              simp only [isRecordAnswer, Bool.and_eq_true, decide_eq_true_eq, beq_iff_eq,
                bne_iff_ne, ne_eq] at h
              obtain ⟨⟨⟨hst, h1⟩, h2⟩, h3⟩ := h
              have hge : ¬ (400 ≤ status) := by omega
              refine ⟨?_, .object fields, ?_, ?_⟩
              · cases ht : fields.lookup "type" with
                | none =>
                    simp [transactionPendingProxy, getTransactionByHash, getProp, h1, ht,
                      strictEqNum, jsGe, jsToNumber, strictEqStr, hge]
                | some v =>
                    have hv : strictEqStr v "pending_transaction" = false := by
                      cases v <;> simp [strictEqStr]
                      rename_i t
                      intro htt
                      exact h2 (by rw [ht, htt])
                    simp [transactionPendingProxy, getTransactionByHash, getProp, h1, ht,
                      strictEqNum, jsGe, jsToNumber, hv, hge]
              · simp [getTransactionByHash, hge]
              · intro line
                simp [getProp, h3]

theorem awaitIndex_pending (txnHash : String) (tail : List FetchOutcome) :
    ∀ (pendings : List FetchOutcome) (count calls waits : Nat),
      count + pendings.length = 51 → count ≤ 50 →
      (∀ o ∈ pendings, isPendingAnswer o = true) →
      awaitIndex txnHash (pendings ++ tail) count calls waits
        = some ⟨.error (timedOut 82 txnHash), calls + (51 - count), waits + (50 - count)⟩ := by
  intro pendings
  induction pendings with
  | nil =>
      intro count calls waits hlen hcount _
      simp at hlen
      omega
  | cons o rest ih =>
      intro count calls waits hlen hcount hall
      have ho := (isPendingAnswer_spec o (hall o (by simp))).1
      rw [List.cons_append, awaitIndex]
      simp only [ho]
      simp only [List.length_cons] at hlen
      by_cases hc : count ≥ 50
      · have h50 : count = 50 := by omega
        subst h50
        simp
      · rw [if_neg hc]
        rw [ih (count + 1) (calls + 1) (waits + 1) (by omega) (by omega)
          (fun o' ho' => hall o' (by simp [ho']))]
        have e1 : calls + 1 + (51 - (count + 1)) = calls + (51 - count) := by omega
        have e2 : waits + 1 + (50 - (count + 1)) = waits + (50 - count) := by omega
        rw [e1, e2]

theorem finalityCheck_failed (txnHash : String) (response : JsonBody) (count calls waits : Nat)
    (hs : ∀ line, getProp line response "success" = .ok (.bool false)) :
    finalityCheck txnHash response count calls waits
      = if count ≥ 50 then some ⟨.error (timedOut 92 txnHash), calls, waits⟩ else none := by
  simp [finalityCheck, hs, truthy]

theorem awaitFinality_of_check (txnHash : String) (script : List FetchOutcome)
    (response : JsonBody) (count calls waits : Nat) (r : PollResult)
    (h : finalityCheck txnHash response count calls waits = some r) :
    awaitFinality txnHash script response count calls waits = some r := by
  cases script with
  | nil => simpa [awaitFinality] using h
  | cons o rest => simp [awaitFinality, h]

theorem awaitFinality_failed (txnHash : String) (tail : List FetchOutcome) :
    ∀ (records : List FetchOutcome) (response : JsonBody) (count calls waits : Nat),
      count + records.length = 50 →
      (∀ line, getProp line response "success" = .ok (.bool false)) →
      (∀ o ∈ records, isRecordAnswer false o = true) →
      awaitFinality txnHash (records ++ tail) response count calls waits
        = some ⟨.error (timedOut 92 txnHash), calls + (50 - count), waits + (50 - count)⟩ := by
  intro records
  induction records with
  | nil =>
      intro response count calls waits hlen hs _
      simp at hlen
      subst hlen
      apply awaitFinality_of_check
      rw [finalityCheck_failed txnHash response 50 calls waits hs]
      simp
  | cons o rest ih =>
      intro response count calls waits hlen hs hall
      simp only [List.length_cons] at hlen
      have hc : ¬ count ≥ 50 := by omega
      obtain ⟨_, body, hbody, hsucc⟩ := isRecordAnswer_spec false o (hall o (by simp))
      rw [List.cons_append, awaitFinality]
      simp only [finalityCheck_failed txnHash response count calls waits hs, if_neg hc, hbody]
      rw [ih body (count + 1) (calls + 1) (waits + 1) (by omega) hsucc
        (fun o' ho' => hall o' (by simp [ho']))]
      have e1 : calls + 1 + (50 - (count + 1)) = calls + (50 - count) := by omega
      have e2 : waits + 1 + (50 - (count + 1)) = waits + (50 - count) := by omega
      rw [e1, e2]

theorem finalityCheck_none_count (txnHash : String) (response : JsonBody)
    (count calls waits : Nat) (h : finalityCheck txnHash response count calls waits = none) :
    count < 50 := by
  unfold finalityCheck at h
  split at h
  · simp at h
  · split at h
    · split at h
      · simp at h
      · omega
    · split at h
      · simp at h
      · split at h
        · split at h <;> simp at h
        · simp at h

theorem awaitFinality_total (txnHash : String) :
    ∀ (script : List FetchOutcome) (response : JsonBody) (count calls waits : Nat),
      50 ≤ count + script.length →
      (awaitFinality txnHash script response count calls waits).isSome = true := by
  intro script
  induction script with
  | nil =>
      intro response count calls waits hlen
      simp only [awaitFinality]
      cases h : finalityCheck txnHash response count calls waits with
      | some r => rfl
      | none =>
          have := finalityCheck_none_count txnHash response count calls waits h
          simp at hlen
          omega
  | cons o rest ih =>
      intro response count calls waits hlen
      simp only [List.length_cons] at hlen
      rw [awaitFinality]
      split
      · rfl
      · next hnone =>
          have := finalityCheck_none_count txnHash response count calls waits hnone
          split
          · rfl
          · exact ih _ _ _ _ (by omega)

theorem settle_total (txnHash : String) (script : List FetchOutcome) (calls waits : Nat)
    (hlen : 51 ≤ script.length) : (settle txnHash script calls waits).isSome = true := by
  cases script with
  | nil => simp at hlen
  | cons o rest =>
      simp only [List.length_cons] at hlen
      rw [settle]
      split
      · rfl
      · exact awaitFinality_total txnHash _ _ _ _ _ (by omega)

theorem awaitIndex_total (txnHash : String) :
    ∀ (script : List FetchOutcome) (count calls waits : Nat),
      52 + (50 - count) ≤ script.length →
      (awaitIndex txnHash script count calls waits).isSome = true := by
  intro script
  induction script with
  | nil =>
      intro count calls waits hlen
      simp at hlen
  | cons o rest ih =>
      intro count calls waits hlen
      simp only [List.length_cons] at hlen
      rw [awaitIndex]
      split
      · rfl
      · split
        · rfl
        · exact ih _ _ _ (by omega)
      · exact settle_total txnHash _ _ _ (by omega)

theorem waitForTransactionProxy_total (txnHash : String) (script : List FetchOutcome)
    (hlen : 102 ≤ script.length) : (waitForTransactionProxy txnHash script).isSome = true :=
  awaitIndex_total txnHash script 0 0 0 (by omega)

/-- C3 (as stated, refuted): after 50 consecutive pending answers the poller
has not timed out and issues a 51st fetch; when that answer is a successful
record it returns it (52 calls in all), and when the endpoint keeps answering
with the pending record the timeout is raised after 51 calls. -/
theorem waitForTransactionProxy_fifty_pending_counterexample :
    (∀ o ∈ List.replicate 50 (okAnswer pendingRecord), isPendingAnswer o = true) ∧
      waitForTransactionProxy "0xabc"
          (List.replicate 50 (okAnswer pendingRecord)
            ++ [okAnswer (userRecord true), okAnswer (userRecord true)])
        = some ⟨.ok (userRecord true), 52, 50⟩ ∧
      waitForTransactionProxy "0xabc" (List.replicate 51 (okAnswer pendingRecord))
        = some ⟨.error ⟨.thrownAt 82, "Error", "Transaction 0xabc timed out"⟩, 51, 50⟩ := by
  decide

/-- C3 (amended): when the by-hash endpoint answers 51 consecutive fetches
with a pending record, `waitForTransactionProxy` raises the timeout error
whose message names the hash, after exactly 51 fetch calls and 50 waits;
whatever answers would follow are not fetched. -/
theorem waitForTransactionProxy_pending_timeout (txnHash : String)
    (pendings tail : List FetchOutcome) (hlen : pendings.length = 51)
    (hall : ∀ o ∈ pendings, isPendingAnswer o = true) :
    waitForTransactionProxy txnHash (pendings ++ tail)
      = some ⟨.error ⟨.thrownAt 82, "Error", "Transaction " ++ txnHash ++ " timed out"⟩,
          51, 50⟩ := by
  have h := awaitIndex_pending txnHash tail pendings 0 0 0 (by omega) (by omega) hall
  simpa [waitForTransactionProxy, timedOut] using h

/-- Instance of the pending timeout on 51 pending answers followed by a
successful record. -/
theorem waitForTransactionProxy_pending_timeout_witness :
    (List.replicate 51 (okAnswer pendingRecord)).length = 51 ∧
      (∀ o ∈ List.replicate 51 (okAnswer pendingRecord), isPendingAnswer o = true) ∧
      waitForTransactionProxy "0xabc"
          (List.replicate 51 (okAnswer pendingRecord) ++ [okAnswer (userRecord true)])
        = some ⟨.error ⟨.thrownAt 82, "Error", "Transaction " ++ "0xabc" ++ " timed out"⟩,
            51, 50⟩ :=
  ⟨by decide, by decide,
    waitForTransactionProxy_pending_timeout "0xabc" (List.replicate 51 (okAnswer pendingRecord))
      [okAnswer (userRecord true)] (by decide) (by decide)⟩

/-- C4: on the answers `[404, 404, pending record, record with success=false,
record with success=true]` the poller returns the last record and has called
`getTransactionByHash` exactly 5 times (with 3 one-second waits). -/
theorem waitForTransactionProxy_five_answers (txnHash : String)
    (a1 a2 a3 a4 a5 : FetchOutcome)
    (h1 : isNotFoundAnswer a1 = true) (h2 : isNotFoundAnswer a2 = true)
    (h3 : isPendingAnswer a3 = true) (h4 : isRecordAnswer false a4 = true)
    (h5 : isRecordAnswer true a5 = true) :
    ∃ record, getTransactionByHash a5 = .ok record ∧
      waitForTransactionProxy txnHash [a1, a2, a3, a4, a5] = some ⟨.ok record, 5, 3⟩ := by
  obtain ⟨p1, _, _, _⟩ := isNotFoundAnswer_spec a1 h1
  obtain ⟨_, b2, g2, s2⟩ := isNotFoundAnswer_spec a2 h2
  obtain ⟨_, b3, g3, s3⟩ := isPendingAnswer_spec a3 h3
  obtain ⟨_, b4, g4, s4⟩ := isRecordAnswer_spec false a4 h4
  obtain ⟨_, b5, g5, s5⟩ := isRecordAnswer_spec true a5 h5
  refine ⟨b5, g5, ?_⟩
  simp [waitForTransactionProxy, awaitIndex, settle, awaitFinality, finalityCheck, p1, g2, g3,
    g4, g5, s2, s3, s4, s5, truthy]

/-- Instance of the five-answer run on the sample answers. -/
theorem waitForTransactionProxy_five_answers_witness :
    ∃ record, getTransactionByHash (okAnswer (userRecord true)) = .ok record ∧
      waitForTransactionProxy "0xabc"
          [notFoundAnswer, notFoundAnswer, okAnswer pendingRecord, okAnswer (userRecord false),
            okAnswer (userRecord true)]
        = some ⟨.ok record, 5, 3⟩ :=
  waitForTransactionProxy_five_answers "0xabc" notFoundAnswer notFoundAnswer
    (okAnswer pendingRecord) (okAnswer (userRecord false)) (okAnswer (userRecord true))
    (by decide) (by decide) (by decide) (by decide) (by decide)

/-- C10: whenever `waitForTransactionProxy` returns normally the returned
record has a truthy `success`; no run ends with the error of line 99
(`<text> - <hash>`); when every fetched record has `success` false the run
ends with the timeout error of the second loop, after 52 fetches; and a run
always completes when the endpoint answers 102 fetches. -/
theorem waitForTransactionProxy_success_only (txnHash : String) (script : List FetchOutcome) :
    (∀ r, waitForTransactionProxy txnHash script = some r →
        (∀ record, r.result = .ok record →
          ∃ v, getProp 90 record "success" = .ok v ∧ truthy v = true) ∧
        (∀ err, r.result = .error err → err.origin ≠ .thrownAt 99)) ∧
      (∀ records tail, script = records ++ tail → records.length = 52 →
        (∀ o ∈ records, isRecordAnswer false o = true) →
        waitForTransactionProxy txnHash script
          = some ⟨.error ⟨.thrownAt 92, "Error", "Transaction " ++ txnHash ++ " timed out"⟩,
              52, 50⟩) ∧
      (102 ≤ script.length → (waitForTransactionProxy txnHash script).isSome = true) := by
  refine ⟨fun r h => awaitIndex_sound txnHash script 0 0 0 r h, ?_,
    waitForTransactionProxy_total txnHash script⟩
  intro records tail hscript hlen hall
  subst hscript
  match records, hlen, hall with
  | o1 :: o2 :: rest, hlen, hall =>
      simp only [List.length_cons] at hlen
      obtain ⟨p1, _⟩ := isRecordAnswer_spec false o1 (hall o1 (by simp))
      obtain ⟨_, b2, g2, s2⟩ := isRecordAnswer_spec false o2 (hall o2 (by simp))
      have h := awaitFinality_failed txnHash tail rest b2 0 2 0 (by omega) s2
        (fun o ho => hall o (by simp [ho]))
      simp only [waitForTransactionProxy, List.cons_append]
      rw [awaitIndex]
      simp only [p1]
      rw [settle]
      simp only [g2]
      simpa [timedOut] using h

/-- Instances of the poller result properties: a run returning a successful
record, and a run on 52 records with `success` false. -/
theorem waitForTransactionProxy_success_only_witness :
    (∀ record, (PollResult.mk (.ok (userRecord true)) 2 0).result = .ok record →
        ∃ v, getProp 90 record "success" = .ok v ∧ truthy v = true) ∧
      waitForTransactionProxy "0xabc" (List.replicate 52 (okAnswer (userRecord false)) ++ [])
        = some ⟨.error ⟨.thrownAt 92, "Error", "Transaction " ++ "0xabc" ++ " timed out"⟩,
            52, 50⟩ :=
  ⟨((waitForTransactionProxy_success_only "0xabc"
      [okAnswer (userRecord true), okAnswer (userRecord true)]).1 _ (by decide)).1,
    (waitForTransactionProxy_success_only "0xabc"
      (List.replicate 52 (okAnswer (userRecord false)) ++ [])).2.1 _ [] rfl (by decide)
      (by decide)⟩

/-! ## Theorems: orchestrator -/

theorem sender_in_scope (sender : String) :
    (lookupVar 124 (sendTransactionScope sender) "sender" >>= addressString 124)
      = .ok sender := by
  simp [lookupVar, sendTransactionScope, List.lookup, addressString, bind, Except.bind]

theorem tryBlock_total (attempt : Attempt) (h : 102 ≤ attempt.polls.length) :
    (tryBlock attempt).isSome = true := by
  unfold tryBlock
  split
  · rfl
  · split
    · rfl
    · split
      · rfl
      · next transactionRes _ =>
          have ht := waitForTransactionProxy_total (jsToString (optionalHash transactionRes))
            attempt.polls h
          cases hw : waitForTransactionProxy (jsToString (optionalHash transactionRes))
              attempt.polls with
          | none => rw [hw] at ht; simp at ht
          | some polled => simp [hw]

theorem nextCount_eq (stored : Option Nat) : nextCount stored = stored.getD 0 + 1 := by
  cases stored <;> simp [nextCount]

theorem handleRetries_fst (config : Config) (retriesMap : RetriesMap) (address : String) :
    (handleRetries config retriesMap address).1
      = decide ((((retriesMap address).getD 0 + 1 : Nat) : Int) < config.retries) := by
  simp [handleRetries, nextCount_eq]

theorem handleRetries_snd_self (config : Config) (retriesMap : RetriesMap) (address : String) :
    (handleRetries config retriesMap address).2 address
      = some ((retriesMap address).getD 0 + 1) := by
  simp [handleRetries, nextCount_eq]

theorem sendTransaction_spec (config : Config) (parse : String → Option JsonBody)
    (sender : String) :
    ∀ (attempts : List Attempt) (retriesMap : RetriesMap) (proxy : Option String),
      (∀ a ∈ attempts, (tryBlock a).isSome = true) →
      attempts ≠ [] →
      config.retries ≤ ((retriesMap sender).getD 0 : Nat) + (attempts.length : Int) →
      ∃ r, sendTransaction config parse sender attempts retriesMap proxy = some r ∧
        r.outcome = .ok () ∧ r.attempts ≤ attempts.length ∧
        r.consulted = ((attempts.take r.attempts).filter attemptFails).length ∧
        ((∀ a ∈ attempts, attemptFails a = true) →
          (r.attempts : Int) = max 1 (config.retries - ((retriesMap sender).getD 0 : Nat)) ∧
          r.consulted = r.attempts ∧
          r.retriesMap sender = some ((retriesMap sender).getD 0 + r.attempts)) := by
  intro attempts
  induction attempts with
  | nil => intro _ _ _ hne; exact absurd rfl hne
  | cons a rest ih =>
      intro retriesMap proxy hsome _ hlen
      rw [sendTransaction]
      have ha := hsome a (by simp)
      cases ht : tryBlock a with
      | none => rw [ht] at ha; simp at ha
      | some res =>
          obtain ⟨res, lines⟩ := res
          cases res with
          | ok v =>
              have hf : attemptFails a = false := by simp [attemptFails, ht]
              refine ⟨_, rfl, rfl, by simp, by simp [hf], ?_⟩
              intro hall
              have := hall a (by simp)
              rw [hf] at this
              simp at this
          | error err =>
              have hf : attemptFails a = true := by simp [attemptFails, ht]
              simp only [sender_in_scope]
              have h1 := handleRetries_fst config retriesMap sender
              have h2 := handleRetries_snd_self config retriesMap sender
              cases hh : handleRetries config retriesMap sender with
              | mk b retriesMap' =>
                  rw [hh] at h1 h2
                  simp only at h1 h2
                  cases b with
                  | false =>
                      have hge : ¬ ((((retriesMap sender).getD 0 + 1 : Nat) : Int)
                          < config.retries) := by
                        intro hlt
                        rw [decide_eq_true hlt] at h1
                        cases h1
                      refine ⟨_, rfl, rfl, by simp, by simp [hf], ?_⟩
                      intro _
                      refine ⟨?_, rfl, ?_⟩
                      · simp only [Nat.cast_one]
                        push_cast at hge
                        rw [max_eq_left (by omega)]
                      · simpa using h2
                  | true =>
                      have hlt : (((retriesMap sender).getD 0 + 1 : Nat) : Int)
                          < config.retries := by
                        have := h1.symm
                        simpa using this
                      simp only [List.length_cons] at hlen
                      push_cast at hlen hlt
                      have hrest : rest ≠ [] := by
                        intro hnil
                        subst hnil
                        simp at hlen
                        omega
                      have hlen' : config.retries
                          ≤ ((retriesMap' sender).getD 0 : Nat) + (rest.length : Int) := by
                        rw [h2]
                        simp only [Option.getD_some]
                        push_cast
                        omega
                      obtain ⟨r, hr, hout, hatt, hcons, hexact⟩ := ih retriesMap' none
                        (fun a' ha' => hsome a' (by simp [ha'])) hrest hlen'
                      refine ⟨⟨r.outcome, r.retriesMap, r.attempts + 1, r.consulted + 1,
                        r.cooldowns + 1, proxy :: r.proxies,
                        (lines ++ [errorLine parse err]) ++ r.log⟩, ?_, hout,
                        by simp; omega, ?_, ?_⟩
                      · dsimp only
                        rw [hr]
                      · simp [List.take, hf, hcons]
                      · intro hall
                        obtain ⟨e1, e2, e3⟩ := hexact (fun a' ha' => hall a' (by simp [ha']))
                        rw [h2] at e1 e3
                        simp only [Option.getD_some] at e1 e3
                        refine ⟨?_, by simp [e2], ?_⟩
                        · push_cast at e1 ⊢
                          rw [e1]
                          have hpos : (1 : Int) ≤ config.retries
                              - (((retriesMap sender).getD 0 : Nat) + 1) := by omega
                          rw [max_eq_right hpos, max_eq_right (by omega)]
                          omega
                        · simp only [e3]
                          congr 1
                          omega

theorem handleRetries_snd_other (config : Config) (retriesMap : RetriesMap)
    (address other : String) (h : other ≠ address) :
    (handleRetries config retriesMap address).2 other = retriesMap other := by
  simp [handleRetries, Function.update, h]

theorem sendTransaction_trace (config : Config) (parse : String → Option JsonBody)
    (sender : String) :
    ∀ (attempts : List Attempt) (retriesMap : RetriesMap) (proxy : Option String),
      (∀ a ∈ attempts, (tryBlock a).isSome = true) →
      attempts ≠ [] →
      config.retries ≤ ((retriesMap sender).getD 0 : Nat) + (attempts.length : Int) →
      ∃ r, sendTransaction config parse sender attempts retriesMap proxy = some r ∧
        r.outcome = .ok () ∧
        1 ≤ r.attempts ∧
        (∀ a ∈ attempts.take (r.attempts - 1), attemptFails a = true) ∧
        (r.consulted = r.attempts ∨ r.consulted + 1 = r.attempts) ∧
        (r.consulted = r.attempts →
          config.retries ≤ (((retriesMap sender).getD 0 + r.attempts : Nat) : Int)) ∧
        (2 ≤ r.attempts →
          (((retriesMap sender).getD 0 + r.attempts : Nat) : Int) ≤ config.retries) ∧
        r.retriesMap sender
          = (if r.consulted = 0 then retriesMap sender
              else some ((retriesMap sender).getD 0 + r.consulted)) ∧
        (∀ other, other ≠ sender → r.retriesMap other = retriesMap other) ∧
        r.cooldowns + 1 = r.attempts ∧
        r.proxies = proxy :: List.replicate r.cooldowns none := by
  intro attempts
  induction attempts with
  | nil => intro _ _ _ hne; exact absurd rfl hne
  | cons a rest ih =>
      intro retriesMap proxy hsome _ hlen
      rw [sendTransaction]
      have ha := hsome a (by simp)
      cases ht : tryBlock a with
      | none => rw [ht] at ha; simp at ha
      | some res =>
          obtain ⟨res, lines⟩ := res
          cases res with
          | ok v =>
              exact ⟨_, rfl, rfl, by simp, by simp, by simp, by simp, by simp, by simp,
                fun _ _ => rfl, rfl, rfl⟩
          | error err =>
              have hf : attemptFails a = true := by simp [attemptFails, ht]
              simp only [sender_in_scope]
              have h1 := handleRetries_fst config retriesMap sender
              have h2 := handleRetries_snd_self config retriesMap sender
              have h3 := handleRetries_snd_other config retriesMap sender
              cases hh : handleRetries config retriesMap sender with
              | mk b retriesMap' =>
                  rw [hh] at h1 h2 h3
                  simp only at h1 h2 h3
                  cases b with
                  | false =>
                      have hge : ¬ ((((retriesMap sender).getD 0 + 1 : Nat) : Int)
                          < config.retries) := by
                        intro hlt
                        rw [decide_eq_true hlt] at h1
                        cases h1
                      refine ⟨_, rfl, rfl, by simp, by simp, by simp, ?_, by simp, ?_,
                        fun other hne => h3 other hne, rfl, rfl⟩
                      · intro _
                        simp only
                        omega
                      · simpa using h2
                  | true =>
                      have hlt : (((retriesMap sender).getD 0 + 1 : Nat) : Int)
                          < config.retries := by
                        have := h1.symm
                        simpa using this
                      simp only [List.length_cons] at hlen
                      push_cast at hlen hlt
                      have hrest : rest ≠ [] := by
                        intro hnil
                        subst hnil
                        simp at hlen
                        omega
                      have hc0 : (retriesMap' sender).getD 0 = (retriesMap sender).getD 0 + 1 := by
                        rw [h2]; rfl
                      have hlen' : config.retries
                          ≤ ((retriesMap' sender).getD 0 : Nat) + (rest.length : Int) := by
                        rw [hc0]
                        push_cast
                        omega
                      obtain ⟨r, hr, hout, hone, hprev, hdisj, hden, hauth, hself, hoth, hcool,
                        hprox⟩ := ih retriesMap' none
                        (fun a' ha' => hsome a' (by simp [ha'])) hrest hlen'
                      rw [hc0] at hden hauth hself
                      refine ⟨⟨r.outcome, r.retriesMap, r.attempts + 1, r.consulted + 1,
                        r.cooldowns + 1, proxy :: r.proxies,
                        (lines ++ [errorLine parse err]) ++ r.log⟩, ?_, hout,
                        by simp, ?_, ?_, ?_, ?_, ?_, ?_, ?_, ?_⟩
                      · dsimp only
                        rw [hr]
                      · intro a' ha'
                        simp only [Nat.add_sub_cancel] at ha'
                        obtain ⟨k, hk⟩ : ∃ k, r.attempts = k + 1 := ⟨r.attempts - 1, by omega⟩
                        rw [hk, List.take_succ_cons] at ha'
                        rcases List.mem_cons.mp ha' with h | h
                        · rw [h]; exact hf
                        · apply hprev
                          rw [hk]
                          simpa using h
                      · simp only
                        omega
                      · intro hall
                        simp only at hall ⊢
                        have := hden (by omega)
                        push_cast at this ⊢
                        omega
                      · intro _
                        simp only
                        by_cases h2a : 2 ≤ r.attempts
                        · have := hauth h2a
                          push_cast at this ⊢
                          omega
                        · have h1a : r.attempts = 1 := by omega
                          rw [h1a]
                          push_cast
                          omega
                      · simp only [Nat.add_one_ne_zero, if_false]
                        rw [hself]
                        by_cases hz : r.consulted = 0
                        · simp [hz, h2]
                        · simp only [hz, if_false]
                          congr 1
                          omega
                      · intro other hne
                        simp only
                        rw [hoth other hne, h3 other hne]
                      · simp only
                        omega
                      · simp only
                        rw [hprox, List.replicate_succ]

/-- C1 (as stated, refuted): with `retries = 0` and every attempt failing,
one submission attempt is made, which exceeds `maxRetries = 0`; and with
`retries = 3` a first call makes 3 attempts and a second call for the same
identity, started from the retry map the first one left, makes one more, so
4 attempts are made for that identity. -/
theorem sendTransaction_zero_retries_counterexample :
    attemptFails refusedAttempt = true ∧
      (sendTransaction (sampleConfig 0) parseFails "0x1" [refusedAttempt, refusedAttempt]
          emptyRetries (some "http://1.2.3.4:8080")).map (fun r => r.attempts) = some 1 ∧
      ¬ ((1 : Int) ≤ (sampleConfig 0).retries) ∧
      ((sendTransaction (sampleConfig 3) parseFails "0x1" (List.replicate 5 refusedAttempt)
          emptyRetries (some "http://1.2.3.4:8080")).bind (fun first =>
        (sendTransaction (sampleConfig 3) parseFails "0x1" (List.replicate 5 refusedAttempt)
          first.retriesMap (some "http://1.2.3.4:8080")).map (fun second =>
            (first.attempts, second.attempts, second.retriesMap "0x1"))))
        = some (3, 1, some 4) ∧
      ¬ (((3 + 1 : Nat) : Int) ≤ (sampleConfig 3).retries) := by
  decide

/-- C1 (amended): for every configured `maxRetries` and every identity, when
every attempt of `sendTransaction` fails, one call makes `max 1 (maxRetries -
c)` invocations (the initial one and the re-invocations authorised by
`handleRetries`), `c` being the count stored for the identity before the call
(`0` if absent) and however many attempts the world would answer.  Hence for
`maxRetries` of at least 1 the number never exceeds `maxRetries`, and when
`c` is below `maxRetries` the call stops with the failure that brings the
stored count to `maxRetries`; for `maxRetries` below 1 exactly one attempt is
made.  Every failure consults `handleRetries` once, the stored count grows by
the number of invocations, and the last failure was denied a retry. -/
theorem sendTransaction_attempts_bounded (config : Config) (parse : String → Option JsonBody)
    (sender : String) (attempts : List Attempt) (retriesMap : RetriesMap)
    (proxy : Option String)
    (hne : attempts ≠ [])
    (hlen : config.retries ≤ ((retriesMap sender).getD 0 : Nat) + (attempts.length : Int))
    (hfail : ∀ a ∈ attempts, attemptFails a = true) :
    ∃ r, sendTransaction config parse sender attempts retriesMap proxy = some r ∧
      (r.attempts : Int) = max 1 (config.retries - ((retriesMap sender).getD 0 : Nat)) ∧
      (1 ≤ config.retries → (r.attempts : Int) ≤ config.retries) ∧
      (config.retries < 1 → r.attempts = 1) ∧
      ((((retriesMap sender).getD 0 : Nat) : Int) < config.retries →
        (((retriesMap sender).getD 0 + r.attempts : Nat) : Int) = config.retries) ∧
      config.retries ≤ (((retriesMap sender).getD 0 + r.attempts : Nat) : Int) ∧
      r.attempts ≤ attempts.length ∧
      r.consulted = r.attempts ∧
      r.retriesMap sender = some ((retriesMap sender).getD 0 + r.attempts) ∧
      (∀ other, other ≠ sender → r.retriesMap other = retriesMap other) := by
  have hsome : ∀ a ∈ attempts, (tryBlock a).isSome = true := by
    intro a ha
    have hf := hfail a ha
    unfold attemptFails at hf
    cases ht : tryBlock a with
    | none => rw [ht] at hf; simp at hf
    | some res => rfl
  obtain ⟨r, hr, _, hatt, _, hexact⟩ :=
    sendTransaction_spec config parse sender attempts retriesMap proxy hsome hne hlen
  obtain ⟨r', hr', _, _, _, _, _, _, _, hoth, _, _⟩ :=
    sendTransaction_trace config parse sender attempts retriesMap proxy hsome hne hlen
  have hrr : r' = r := Option.some.inj (hr'.symm.trans hr)
  subst hrr
  obtain ⟨e1, e2, e3⟩ := hexact hfail
  have hmax1 : (1 : Int) ≤ max 1 (config.retries - ((retriesMap sender).getD 0 : Nat)) :=
    le_max_left _ _
  have hmax2 : config.retries - ((retriesMap sender).getD 0 : Nat)
      ≤ max 1 (config.retries - ((retriesMap sender).getD 0 : Nat)) := le_max_right _ _
  refine ⟨r', hr, e1, ?_, ?_, ?_, ?_, hatt, e2, e3, hoth⟩
  · intro hretries
    rw [e1]
    apply max_le hretries
    omega
  · intro hlt
    have h : max 1 (config.retries - ((retriesMap sender).getD 0 : Nat)) = 1 :=
      max_eq_left (by omega)
    rw [h] at e1
    exact_mod_cast e1
  · intro hlt
    have h : max 1 (config.retries - ((retriesMap sender).getD 0 : Nat))
        = config.retries - ((retriesMap sender).getD 0 : Nat) := max_eq_right (by omega)
    rw [h] at e1
    push_cast
    omega
  · push_cast
    omega

/-- Instance of the attempt count with `retries = 3` and refused
submissions, five of which the world would answer. -/
theorem sendTransaction_attempts_bounded_witness :
    ∃ r, sendTransaction (sampleConfig 3) parseFails "0x1" (List.replicate 5 refusedAttempt)
        emptyRetries (some "http://1.2.3.4:8080") = some r ∧
      (r.attempts : Int) = max 1 ((sampleConfig 3).retries - ((emptyRetries "0x1").getD 0 : Nat)) ∧
      (1 ≤ (sampleConfig 3).retries → (r.attempts : Int) ≤ (sampleConfig 3).retries) ∧
      ((sampleConfig 3).retries < 1 → r.attempts = 1) ∧
      ((((emptyRetries "0x1").getD 0 : Nat) : Int) < (sampleConfig 3).retries →
        (((emptyRetries "0x1").getD 0 + r.attempts : Nat) : Int) = (sampleConfig 3).retries) ∧
      (sampleConfig 3).retries ≤ (((emptyRetries "0x1").getD 0 + r.attempts : Nat) : Int) ∧
      r.attempts ≤ (List.replicate 5 refusedAttempt).length ∧
      r.consulted = r.attempts ∧
      r.retriesMap "0x1" = some ((emptyRetries "0x1").getD 0 + r.attempts) ∧
      (∀ other, other ≠ "0x1" → r.retriesMap other = emptyRetries other) :=
  sendTransaction_attempts_bounded (sampleConfig 3) parseFails "0x1"
    (List.replicate 5 refusedAttempt) emptyRetries (some "http://1.2.3.4:8080")
    (by decide) (by decide) (by decide)

/-- C7: whatever happens while building, signing, submitting or confirming in
each invocation, `sendTransaction` completes and returns normally, with no
exception reaching the caller.  At least one invocation is made; every
invocation but the last failed and was authorised a retry by
`handleRetries`; `handleRetries` is consulted once per failed invocation and
not otherwise, which shows in the retry map: the count stored for the signer
grows by the number of failed invocations and no other identity changes.
When the last invocation failed too, its retry was denied (the stored count
has reached `maxRetries`).  Each retry waits one cooldown and passes no
proxy.  The by-hash endpoint is assumed to answer 102 fetches per invocation,
and the world to be described for as many invocations as the retry ledger
can authorise. -/
theorem sendTransaction_returns_normally (config : Config)
    (parse : String → Option JsonBody) (sender : String) (attempts : List Attempt)
    (retriesMap : RetriesMap) (proxy : Option String)
    (hpolls : ∀ a ∈ attempts, 102 ≤ a.polls.length)
    (hne : attempts ≠ [])
    (hlen : config.retries ≤ ((retriesMap sender).getD 0 : Nat) + (attempts.length : Int)) :
    ∃ r, sendTransaction config parse sender attempts retriesMap proxy = some r ∧
      r.outcome = .ok () ∧
      1 ≤ r.attempts ∧ r.attempts ≤ attempts.length ∧
      r.consulted = ((attempts.take r.attempts).filter attemptFails).length ∧
      (∀ a ∈ attempts.take (r.attempts - 1), attemptFails a = true) ∧
      (r.consulted = r.attempts ∨ r.consulted + 1 = r.attempts) ∧
      (r.consulted = r.attempts →
        config.retries ≤ (((retriesMap sender).getD 0 + r.attempts : Nat) : Int)) ∧
      (2 ≤ r.attempts →
        (((retriesMap sender).getD 0 + r.attempts : Nat) : Int) ≤ config.retries) ∧
      r.retriesMap sender
        = (if r.consulted = 0 then retriesMap sender
            else some ((retriesMap sender).getD 0 + r.consulted)) ∧
      (∀ other, other ≠ sender → r.retriesMap other = retriesMap other) ∧
      r.cooldowns + 1 = r.attempts ∧
      r.proxies = proxy :: List.replicate r.cooldowns none := by
  have hsome : ∀ a ∈ attempts, (tryBlock a).isSome = true :=
    fun a ha => tryBlock_total a (hpolls a ha)
  obtain ⟨r, hr, hout, hatt, hcons, _⟩ :=
    sendTransaction_spec config parse sender attempts retriesMap proxy hsome hne hlen
  obtain ⟨r', hr', _, hone, hprev, hdisj, hden, hauth, hself, hoth, hcool, hprox⟩ :=
    sendTransaction_trace config parse sender attempts retriesMap proxy hsome hne hlen
  have hrr : r' = r := Option.some.inj (hr'.symm.trans hr)
  subst hrr
  exact ⟨r', hr, hout, hone, hatt, hcons, hprev, hdisj, hden, hauth, hself, hoth, hcool,
    hprox⟩

/-- Instance of the normal return with `retries = 3` and transactions that
stay pending until the poller times out. -/
theorem sendTransaction_returns_normally_witness :
    ∃ r, sendTransaction (sampleConfig 3) parseFails "0x1" (List.replicate 3 stuckAttempt)
        emptyRetries (some "http://1.2.3.4:8080") = some r ∧
      r.outcome = .ok () ∧
      1 ≤ r.attempts ∧ r.attempts ≤ (List.replicate 3 stuckAttempt).length ∧
      r.consulted
        = (((List.replicate 3 stuckAttempt).take r.attempts).filter attemptFails).length ∧
      (∀ a ∈ (List.replicate 3 stuckAttempt).take (r.attempts - 1), attemptFails a = true) ∧
      (r.consulted = r.attempts ∨ r.consulted + 1 = r.attempts) ∧
      (r.consulted = r.attempts →
        (sampleConfig 3).retries ≤ (((emptyRetries "0x1").getD 0 + r.attempts : Nat) : Int)) ∧
      (2 ≤ r.attempts →
        (((emptyRetries "0x1").getD 0 + r.attempts : Nat) : Int) ≤ (sampleConfig 3).retries) ∧
      r.retriesMap "0x1"
        = (if r.consulted = 0 then emptyRetries "0x1"
            else some ((emptyRetries "0x1").getD 0 + r.consulted)) ∧
      (∀ other, other ≠ "0x1" → r.retriesMap other = emptyRetries other) ∧
      r.cooldowns + 1 = r.attempts ∧
      r.proxies = some "http://1.2.3.4:8080" :: List.replicate r.cooldowns none :=
  sendTransaction_returns_normally (sampleConfig 3) parseFails "0x1"
    (List.replicate 3 stuckAttempt) emptyRetries (some "http://1.2.3.4:8080")
    (by decide) (by decide) (by decide)

/-! ## Theorems: balance check -/

/-- C8 (evaluation at the failing input): when the balance query fails with
an error that is not `Resource not found`, `checkBalance` raises a
`ReferenceError` from its `catch` block, at the evaluation of `sender` on
line 163: `handleRetries` is never consulted, nothing is retried, and the
exception reaches the caller. -/
theorem checkBalance_failure_raises (config : Config) (parse : String → Option JsonBody)
    (account : String) (rejection : Rejection) (rest : List (Except Rejection Nat))
    (retriesMap : RetriesMap)
    (h : (resourceNotFound parse rejection.toError).1 = false) :
    ∃ r, checkBalance config parse account (.error rejection :: rest) retriesMap = some r ∧
      r.outcome = .error ⟨.runtime 163, "ReferenceError", "sender is not defined"⟩ ∧
      r.attempts = 1 ∧ r.consulted = 0 ∧ r.retriesMap = retriesMap := by
  have hscope : (lookupVar 163 (checkBalanceScope account) "sender" >>= addressString 163)
      = .error ⟨.runtime 163, "ReferenceError", "sender is not defined"⟩ := by
    simp [lookupVar, checkBalanceScope, moduleScope, List.lookup, bind, Except.bind]
  rw [checkBalance]
  cases hr : resourceNotFound parse rejection.toError with
  | mk b line =>
      rw [hr] at h
      simp only at h
      subst h
      simp only [hscope]
      exact ⟨_, rfl, rfl, rfl, rfl, rfl⟩

/-- Instance of the balance-check failure on a refused connection. -/
theorem checkBalance_failure_raises_witness :
    ∃ r, checkBalance (sampleConfig 3) parseFails "0x1"
        [.error connectionRefused, .ok 100000000] emptyRetries = some r ∧
      r.outcome = .error ⟨.runtime 163, "ReferenceError", "sender is not defined"⟩ ∧
      r.attempts = 1 ∧ r.consulted = 0 ∧ r.retriesMap = emptyRetries :=
  checkBalance_failure_raises (sampleConfig 3) parseFails "0x1" connectionRefused
    [.ok 100000000] emptyRetries (by decide)

end AptosEnableNft
